import Mathlib

/-!
Verification of the entity-component runtime and collision/update pipeline
of the `gmtk-game-jam-2020` game (`Game` in `pickup.component.ts`, the
`GameState` store, and the per-frame update/collision cycle).

The world is embedded shallowly: the mutable entity objects live in a heap
(an association list from an object identity `Nat` to the entity's mutable
state), and the `entities` array of the `Game` class is a list of such
identities.  Component behaviour (the bodies of `update`, `lateUpdate`,
`onDestroy`, `spawn` and `collidedWith`) is abstract: a `Hooks` record of
state transformers, since the concrete components are outside the core
being verified.  The frame driver additionally produces an event log so
that ordering and exactly-once properties can be stated.
-/

/-- Modelled from the spec: the axial bounding box of `HitboxComponent`
(the component source is not part of the core sources; the spec gives the
AABB intersection formula and the tag/block lists). -/
structure Hitbox where
  x : Int
  y : Int
  width : Int
  height : Int
  tags : List String
  blocks : List String
deriving DecidableEq, Repr

/-- Modelled from the spec: the standard AABB overlap test of
`HitboxComponent.intersects` (zero-area boxes never intersect). -/
def Hitbox.intersects (a b : Hitbox) : Bool :=
  a.x < b.x + b.width && a.x + a.width > b.x &&
  a.y < b.y + b.height && a.y + a.height > b.y

/-- The `GameState` store (version with the `_catsReturnedinARow` streak). -/
structure GameState where
  _lives : Int
  _score : Int
  _catsReturnedinARow : Int
deriving DecidableEq, Repr

/-- Field initialisers of `new GameState()`: 3 lives, 0 score, 0 streak. -/
def GameState.new : GameState :=
  { _lives := 3, _score := 0, _catsReturnedinARow := 0 }

/-- The `lives` getter. -/
def GameState.lives (s : GameState) : Int :=
  s._lives

/-- The `score` getter. -/
def GameState.score (s : GameState) : Int :=
  s._score

/-- `gainLife()`: increments `_lives`. -/
def GameState.gainLife (s : GameState) : GameState :=
  { s with _lives := s._lives + 1 }

/-- The `catsReturnedinARow` setter: if the new value exceeds 5, a life is
gained and the streak resets to 0; otherwise the streak is stored. -/
def GameState.setCats (s : GameState) (newValue : Int) : GameState :=
  if newValue > 5 then
    { s.gainLife with _catsReturnedinARow := 0 }
  else
    { s with _catsReturnedinARow := newValue }

/-- `loseLife()`: assigns 0 to the streak via the setter, then decrements
`_lives`. -/
def GameState.loseLife (s : GameState) : GameState :=
  let s1 := s.setCats 0
  { s1 with _lives := s1._lives - 1 }

/-- `increaseScore(amount)`: increments the streak via the setter, then adds
`amount` to `_score`. -/
def GameState.increaseScore (s : GameState) (amount : Int) : GameState :=
  let s1 := s.setCats (s._catsReturnedinARow + 1)
  { s1 with _score := s1._score + amount }

/-- The mutable state of one `Entity` object: its world-assigned identifier
(0 while still unassigned, mirroring `undefined`), its `deleted` flag, and
its hitbox. -/
structure EntState where
  entityId : Nat
  deleted : Bool
  hb : Hitbox
deriving DecidableEq, Repr

/-- A heap of entity objects: object identity ↦ mutable state. -/
abbrev Heap := List (Nat × EntState)

/-- Reads the entity object with identity `k` from the heap. -/
def hget (h : Heap) (k : Nat) : Option EntState :=
  match h with
  | [] => none
  | (k', e) :: tl => if k' = k then some e else hget tl k

/-- Mutates the entity object with identity `k` in place. -/
def hset (h : Heap) (k : Nat) (f : EntState → EntState) : Heap :=
  match h with
  | [] => []
  | (k', e) :: tl => if k' = k then (k', f e) :: tl else (k', e) :: hset tl k f

/-- Reads an entity's `deleted` flag (a missing object reads as live). -/
def isDeletedH (h : Heap) (k : Nat) : Bool :=
  match hget h k with
  | some e => e.deleted
  | none => false

/-- Reads an entity's hitbox, as `getHitboxFrom` does; a missing object
yields a zero-area box, which intersects nothing. -/
def getHbH (h : Heap) (k : Nat) : Hitbox :=
  match hget h k with
  | some e => e.hb
  | none => { x := 0, y := 0, width := 0, height := 0, tags := [], blocks := [] }

/-- The state of the `Game` object: the heap of entity objects, the
`entities` array (a list of object identities), the id counter `count`
(initialised to 1), the current `GameState`, and the `breakCircuit` flags of
the `keyup` listeners registered so far by the game-over branch (in
registration order, one flag per registered listener). -/
structure World where
  heap : Heap
  arr : List Nat
  count : Nat
  state : GameState
  listeners : List Bool
deriving DecidableEq, Repr

/-- Reads the `deleted` flag of entity `k` in world `w`. -/
def isDeleted (w : World) (k : Nat) : Bool :=
  isDeletedH w.heap k

/-- Reads the hitbox of entity `k` in world `w`. -/
def getHb (w : World) (k : Nat) : Hitbox :=
  getHbH w.heap k

/-- Marks entity `k` deleted. -/
def setDeleted (w : World) (k : Nat) : World :=
  { w with heap := hset w.heap k (fun e => { e with deleted := true }) }

/-- Assigns entity `k` its identifier (the `e.entityId = this.count` write). -/
def setEntityId (w : World) (k : Nat) (n : Nat) : World :=
  { w with heap := hset w.heap k (fun e => { e with entityId := n }) }

/-- Constructs a fresh entity object (`new Entity()` plus its attachments):
the object exists in the heap but is not yet in the world's collection. -/
def alloc (w : World) (k : Nat) (st : EntState) : World :=
  { w with heap := w.heap ++ [(k, st)] }

/-- The abstract behaviour of the attached components, supplied as state
transformers: `upd`/`late` are an entity's `update`/`lateUpdate` bodies,
`onDestroy` its `destroy()` body, `spawnHook` its `spawn(this)` body, `hit
a b` the effect of `a`'s hitbox being told `collidedWith` `b`'s hitbox, and
`initEnts` models `Game.initEntities` (which depends on `config.json`,
outside the core). -/
structure Hooks where
  upd : Nat → Int → World → World
  late : Nat → Int → World → World
  onDestroy : Nat → World → World
  spawnHook : Nat → World → World
  hit : Nat → Nat → World → World
  initEnts : World → World

/-- Trivial hooks: every component body is a no-op. -/
def Hid : Hooks :=
  { upd := fun _ _ w => w
    late := fun _ _ w => w
    onDestroy := fun _ w => w
    spawnHook := fun _ w => w
    hit := fun _ _ w => w
    initEnts := fun w => w }

/-- The observable steps of one `Game.addEntity` call. -/
inductive AddEv where
  | spawnCalled
  | idAssigned (n : Nat)
  | appended
deriving DecidableEq, Repr

/-- `Game.addEntity(e)`, statement for statement: `e.spawn(this)`, then
`e.entityId = this.count`, then `this.count++`, then
`this.entities.push(e)`.  The trace records the three observable steps in
execution order. -/
def addEntity (H : Hooks) (k : Nat) (w : World) : World × List AddEv :=
  let w1 := H.spawnHook k w
  let w2 := setEntityId w1 k w1.count
  let w3 := { w2 with count := w2.count + 1 }
  let w4 := { w3 with arr := w3.arr ++ [k] }
  (w4, [AddEv.spawnCalled, AddEv.idAssigned w1.count, AddEv.appended])

/-- A sequence of `addEntity` calls on one world, with the concatenated
traces. -/
def addMany (H : Hooks) (ks : List Nat) (w : World) : World × List AddEv :=
  match ks with
  | [] => (w, [])
  | k :: tl =>
    let p1 := addEntity H k w
    let p2 := addMany H tl p1.1
    (p2.1, p1.2 ++ p2.2)

/-- The identifiers assigned during a trace, in assignment order. -/
def assignedIds (t : List AddEv) : List Nat :=
  t.filterMap (fun ev =>
    match ev with
    | AddEv.idAssigned n => some n
    | _ => none)

/-- The contiguous identifier run starting at `s` of length `n`. -/
def idsFrom (s : Nat) : Nat → List Nat
  | 0 => []
  | n + 1 => s :: idsFrom (s + 1) n

/-- The events the frame driver logs: each hook invocation of
`Game.update`, plus the collision pass's pair evaluations.  `pairEval a b
da db` records that the pair (outer member `a`, inner member `b`) passed
both deleted guards; `da`/`db` are the members' actual `deleted` flags at
that moment (ghost observations, not read by the code: the code read `a`'s
flag once, when `a`'s outer iteration began).  `collided a b` records the
call `aHitbox.collidedWith(bHitbox)`. -/
inductive Ev where
  | update (k : Nat)
  | lateUpdate (k : Nat)
  | destroyed (k : Nat)
  | pairEval (a b : Nat) (da db : Bool)
  | collided (a b : Nat)
deriving DecidableEq, Repr

/-- The update pass body: `[...this.entities].forEach(e => e.update(delta))`
over the snapshot `snap`, logging each invocation. -/
def runUpdates (H : Hooks) (d : Int) (snap : List Nat) (w : World) :
    World × List Ev :=
  match snap with
  | [] => (w, [])
  | k :: tl =>
    let p := runUpdates H d tl (H.upd k d w)
    (p.1, Ev.update k :: p.2)

/-- The late-update pass body:
`[...this.entities].forEach(e => e.lateUpdate(delta))` over the snapshot. -/
def runLates (H : Hooks) (d : Int) (snap : List Nat) (w : World) :
    World × List Ev :=
  match snap with
  | [] => (w, [])
  | k :: tl =>
    let p := runLates H d tl (H.late k d w)
    (p.1, Ev.lateUpdate k :: p.2)

/-- Destroys the listed entities in order (`forEach(e => e.destroy())`). -/
def runDestroys (H : Hooks) (dels : List Nat) (w : World) : World × List Ev :=
  match dels with
  | [] => (w, [])
  | k :: tl =>
    let p := runDestroys H tl (H.onDestroy k w)
    (p.1, Ev.destroyed k :: p.2)

/-- The inner collision loop over the remaining snapshot members after the
outer member `e1k`: skip a member whose `deleted` flag is currently set;
otherwise fetch both hitboxes fresh and, when they intersect, invoke
`collidedWith` in both directions, outer member's hitbox notified first. -/
def innerLoop (H : Hooks) (e1k : Nat) (rest : List Nat) (w : World) :
    World × List Ev :=
  match rest with
  | [] => (w, [])
  | e2k :: tl =>
    if isDeleted w e2k then
      innerLoop H e1k tl w
    else
      let pe := Ev.pairEval e1k e2k (isDeleted w e1k) (isDeleted w e2k)
      if (getHb w e1k).intersects (getHb w e2k) then
        let w2 := H.hit e2k e1k (H.hit e1k e2k w)
        let p := innerLoop H e1k tl w2
        (p.1, pe :: Ev.collided e1k e2k :: Ev.collided e2k e1k :: p.2)
      else
        let p := innerLoop H e1k tl w
        (p.1, pe :: p.2)

/-- The outer collision loop: for each snapshot member in turn, skip it if
its `deleted` flag is set when its iteration begins (checked once per outer
member), else run the inner loop over the later snapshot members. -/
def outerLoop (H : Hooks) (snap : List Nat) (w : World) : World × List Ev :=
  match snap with
  | [] => (w, [])
  | e1k :: tl =>
    if isDeleted w e1k then
      outerLoop H tl w
    else
      let p1 := innerLoop H e1k tl w
      let p2 := outerLoop H tl p1.1
      (p2.1, p1.2 ++ p2.2)

/-- `Game.detectCollisions()`: the O(n²) scan over the snapshot
`[...this.entities]` taken at pass start. -/
def detectCollisions (H : Hooks) (w : World) : World × List Ev :=
  outerLoop H w.arr w

/-- Step 1 of the frame: the update pass over the pass-start snapshot. -/
def updateStage (H : Hooks) (d : Int) (w : World) : World × List Ev :=
  runUpdates H d w.arr w

/-- Step 2 of the frame:
`this.entities.filter(e => e.deleted).forEach(e => e.destroy())` — the list
of doomed entities is computed first, from the current flags, then each is
destroyed. -/
def destroyStage (H : Hooks) (w : World) : World × List Ev :=
  runDestroys H (w.arr.filter (fun k => isDeleted w k)) w

/-- Step 3 of the frame:
`this.entities = this.entities.filter(e => !e.deleted)`. -/
def compactStage (w : World) : World :=
  { w with arr := w.arr.filter (fun k => !isDeleted w k) }

/-- Step 5 of the frame: the late-update pass over the current snapshot. -/
def lateStage (H : Hooks) (d : Int) (w : World) : World × List Ev :=
  runLates H d w.arr w

/-- The non-game-over body of `Game.update()`: update pass, destruction
pass, compaction, collision pass, late-update pass, in that order. -/
def updateFrame (H : Hooks) (d : Int) (w : World) : World × List Ev :=
  let p1 := updateStage H d w
  let p2 := destroyStage H p1.1
  let w3 := compactStage p2.1
  let p3 := detectCollisions H w3
  let p4 := lateStage H d p3.1
  (p4.1, p1.2 ++ p2.2 ++ p3.2 ++ p4.2)

/-- `Game.isGameOver()`: `this.state.lives <= 0`. -/
def isGameOver (w : World) : Bool :=
  w.state.lives ≤ 0

/-- `Game.update()`: if the game is over, register one more `keyup`
listener whose closure-captured `breakCircuit` flag starts `false`, and
return without running any pass; otherwise run the frame. -/
def gameUpdate (H : Hooks) (d : Int) (w : World) : World × List Ev :=
  if isGameOver w then
    ({ w with listeners := w.listeners ++ [false] }, [])
  else
    updateFrame H d w

/-- `n` consecutive `Game.update()` calls, with the concatenated logs. -/
def gameUpdateN (H : Hooks) (d : Int) : Nat → World → World × List Ev
  | 0, w => (w, [])
  | n + 1, w =>
    let p1 := gameUpdate H d w
    let p2 := gameUpdateN H d n p1.1
    (p2.1, p1.2 ++ p2.2)

/-- One registered listener's reaction to a Space `keyup` while its
`breakCircuit` flag is still `false`: destroy every entity in the
collection, empty the collection, replace the game state with a fresh one,
rebuild the initial entities, and set the flag.  A listener whose flag is
already set does nothing. -/
def resetBody (H : Hooks) (w : World) : World :=
  let p := runDestroys H w.arr w
  let w2 := { p.1 with arr := [] }
  let w3 := { w2 with state := GameState.new }
  H.initEnts w3

/-- Dispatches a Space `keyup` to the registered listeners in registration
order; returns the world, the updated `breakCircuit` flags, and the number
of listeners that executed the destroy/rebuild reset. -/
def runListeners (H : Hooks) (flags : List Bool) (w : World) :
    World × List Bool × Nat :=
  match flags with
  | [] => (w, [], 0)
  | f :: tl =>
    if f then
      let p := runListeners H tl w
      (p.1, true :: p.2.1, p.2.2)
    else
      let p := runListeners H tl (resetBody H w)
      (p.1, true :: p.2.1, p.2.2 + 1)

/-- A Space `keyup` event: every listener registered so far fires. -/
def spaceKeyup (H : Hooks) (w : World) : World × Nat :=
  let p := runListeners H w.listeners w
  ({ p.1 with listeners := p.2.1 }, p.2.2)

/-- One operation on the `GameState` store. -/
inductive GOp where
  | inc (amount : Int)
  | lose
  | gain
deriving DecidableEq, Repr

/-- Applies one store operation. -/
def applyOp (s : GameState) : GOp → GameState
  | GOp.inc a => s.increaseScore a
  | GOp.lose => s.loseLife
  | GOp.gain => s.gainLife

/-- Applies a sequence of store operations in order. -/
def runOps (s : GameState) : List GOp → GameState
  | [] => s
  | op :: tl => runOps (applyOp s op) tl

/-- The `collidedWith` invocations of a log, in order: `(a, b)` stands for
`aHitbox.collidedWith(bHitbox)`. -/
def collPairs (log : List Ev) : List (Nat × Nat) :=
  log.filterMap (fun ev =>
    match ev with
    | Ev.collided a b => some (a, b)
    | _ => none)

/-- All index pairs `i < j` of a snapshot, in loop order, as the element
pairs `(snap[i], snap[j])`. -/
def pairsOf : List Nat → List (Nat × Nat)
  | [] => []
  | x :: xs => xs.map (fun y => (x, y)) ++ pairsOf xs

/-- The canonical callback list for a pass whose callbacks leave the heap
alone: each intersecting `i < j` pair contributes the two notifications,
outer member first; other pairs contribute nothing. -/
def expectedPairs (h : Heap) (snap : List Nat) : List (Nat × Nat) :=
  (pairsOf snap).flatMap (fun p =>
    if (getHbH h p.1).intersects (getHbH h p.2) then
      [(p.1, p.2), (p.2, p.1)]
    else
      [])

/-- A live entity object whose hitbox is `b`, before any id assignment. -/
def ent0 (b : Hitbox) : EntState :=
  { entityId := 0, deleted := false, hb := b }

/-- A 32×32 box at the origin. -/
def boxA : Hitbox :=
  { x := 0, y := 0, width := 32, height := 32, tags := [], blocks := [] }

/-- A 32×32 box at x=20: overlaps `boxA` and `boxC`. -/
def boxB : Hitbox :=
  { x := 20, y := 0, width := 32, height := 32, tags := [], blocks := [] }

/-- A 32×32 box at x=10: overlaps `boxA` and `boxB`. -/
def boxC : Hitbox :=
  { x := 10, y := 0, width := 32, height := 32, tags := [], blocks := [] }

/-- A 32×32 box at x=100: overlaps none of the boxes above. -/
def boxFar : Hitbox :=
  { x := 100, y := 0, width := 32, height := 32, tags := [], blocks := [] }

/-- The spec's scenario player box: (0,0,32,32) tagged `player`. -/
def boxPlayer : Hitbox :=
  { x := 0, y := 0, width := 32, height := 32, tags := ["player"], blocks := [] }

/-- The spec's scenario cat box: (20,0,32,32) tagged `cat`. -/
def boxCat : Hitbox :=
  { x := 20, y := 0, width := 32, height := 32, tags := ["cat"], blocks := [] }

/-- A world as built by the `Game` constructor: no entities, id counter 1,
fresh state, no listeners yet. -/
def freshW : World :=
  { heap := [], arr := [], count := 1, state := GameState.new, listeners := [] }

/-- Two live overlapping entities (the spec's player/cat scenario). -/
def wAB : World :=
  { heap := [(1, ent0 boxPlayer), (2, ent0 boxCat)], arr := [1, 2],
    count := 3, state := GameState.new, listeners := [] }

/-- Hooks whose only effect: when entity 1's hitbox is notified of a
collision with entity 2's hitbox, a component deletes entity 1. -/
def Hdel : Hooks :=
  { Hid with hit := fun a b w => if a = 1 && b = 2 then setDeleted w 1 else w }

/-- Two overlapping entities, with `Hdel` about to delete entity 1 during
the collision pass. -/
def wC1 : World :=
  { heap := [(1, ent0 boxA), (2, ent0 boxB)], arr := [1, 2],
    count := 3, state := GameState.new, listeners := [] }

/-- Three mutually overlapping entities for the mid-pass-deletion scan. -/
def wC3 : World :=
  { heap := [(1, ent0 boxA), (2, ent0 boxB), (3, ent0 boxC)], arr := [1, 2, 3],
    count := 4, state := GameState.new, listeners := [] }

/-- The entity that a component adds mid-frame. -/
def farEnt : EntState :=
  { entityId := 0, deleted := false, hb := boxFar }

/-- Hooks where entity 1's component calls `addEntity` on a freshly
constructed entity (identity 9) from inside its `update` body. -/
def Hadd : Hooks :=
  { Hid with upd := fun k _ w => if k = 1 then (addEntity Hid 9 (alloc w 9 farEnt)).1 else w }

/-- A world with the single entity 1, about to gain entity 9 mid-frame. -/
def wC10 : World :=
  { heap := [(1, ent0 boxA)], arr := [1],
    count := 2, state := GameState.new, listeners := [] }

/-- A world already in the terminal game-over state: two entities remain,
no lives left, no listener registered yet. -/
def gameOverW : World :=
  { heap := [(1, ent0 boxA), (2, ent0 boxFar)], arr := [1, 2], count := 3,
    state := { _lives := 0, _score := 5, _catsReturnedinARow := 2 },
    listeners := [] }

theorem setCats_score (s : GameState) (v : Int) :
    (s.setCats v)._score = s._score := by
  unfold GameState.setCats GameState.gainLife
  split <;> rfl

theorem increaseScore_score (s : GameState) (a : Int) :
    (s.increaseScore a)._score = s._score + a := by
  unfold GameState.increaseScore
  simp [setCats_score]

theorem loseLife_score (s : GameState) :
    (s.loseLife)._score = s._score := by
  unfold GameState.loseLife
  simp [setCats_score]

/-- Claim C5: six `increaseScore(1)` calls on a fresh `GameState` leave 4
lives and a streak of 0 (the sixth call pushes the streak past 5, granting
a bonus life and resetting the streak); and `loseLife()` always resets the
streak to 0 and decrements lives by exactly 1. -/
theorem C5_streak_rule :
    (((((((GameState.new.increaseScore 1).increaseScore 1).increaseScore 1).increaseScore
            1).increaseScore 1).increaseScore 1)._lives = 4 ∧
      ((((((GameState.new.increaseScore 1).increaseScore 1).increaseScore 1).increaseScore
            1).increaseScore 1).increaseScore 1)._catsReturnedinARow = 0) ∧
    ∀ s : GameState,
      (s.loseLife)._catsReturnedinARow = 0 ∧ (s.loseLife)._lives = s._lives - 1 := by
  refine ⟨by decide, ?_⟩
  intro s
  constructor <;> rfl

/-- Claim C9, counterexample: `increaseScore(-1)` on a fresh store makes
the score smaller, so the score is not non-decreasing under arbitrary
amounts. -/
theorem C9_counterexample :
    (GameState.new.increaseScore (-1))._score < GameState.new._score := by
  decide

/-- Claim C9, amended: over any sequence of store operations whose
`increaseScore` amounts are all non-negative, the score never decreases. -/
theorem C9_amended (ops : List GOp) :
    ∀ s : GameState, (∀ a : Int, GOp.inc a ∈ ops → 0 ≤ a) →
      s._score ≤ (runOps s ops)._score := by
  induction ops with
  | nil =>
    intro s _
    exact le_refl _
  | cons op tl ih =>
    intro s h
    have hstep : s._score ≤ (applyOp s op)._score := by
      cases op with
      | inc a =>
        have ha : 0 ≤ a := h a (List.mem_cons_self _ _)
        show s._score ≤ (s.increaseScore a)._score
        rw [increaseScore_score]
        exact le_add_of_nonneg_right ha
      | lose =>
        show s._score ≤ (s.loseLife)._score
        rw [loseLife_score]
      | gain =>
        exact le_refl _
    have htl := ih (applyOp s op) (fun a ha => h a (List.mem_cons_of_mem _ ha))
    exact le_trans hstep htl

/-- Claim C9 witness: a concrete non-negative sequence, score 0 ≤ final. -/
theorem C9_witness :
    GameState.new._score
      ≤ (runOps GameState.new [GOp.inc 1, GOp.lose, GOp.gain, GOp.inc 2])._score := by
  apply C9_amended
  intro a ha
  simp only [List.mem_cons, List.not_mem_nil, or_false] at ha
  rcases ha with h | h | h | h
  · cases h
    decide
  · cases h
  · cases h
  · cases h
    decide

/-- Claim C4, counterexample: on a fresh world, `addEntity` produces the
step trace spawn-then-assign-then-append, not the claimed
assign-then-spawn-then-append; in particular the entity's id is still
unassigned while `spawn(this)` runs. -/
theorem C4_counterexample :
    (addEntity Hid 7 (alloc freshW 7 (ent0 boxA))).2
        = [AddEv.spawnCalled, AddEv.idAssigned 1, AddEv.appended] ∧
      [AddEv.spawnCalled, AddEv.idAssigned 1, AddEv.appended]
        ≠ [AddEv.idAssigned 1, AddEv.spawnCalled, AddEv.appended] :=
  ⟨rfl, by decide⟩

/-- Claim C4, amended: `addEntity(e)` first calls `e.spawn(this)`, then
assigns the counter value as the identifier, then increments the counter
and appends `e` to the live collection. -/
theorem C4_amended (H : Hooks) (k : Nat) (w : World) :
    (addEntity H k w).2
        = [AddEv.spawnCalled, AddEv.idAssigned (H.spawnHook k w).count, AddEv.appended] ∧
      (addEntity H k w).1.arr = (H.spawnHook k w).arr ++ [k] ∧
      (addEntity H k w).1.count = (H.spawnHook k w).count + 1 :=
  ⟨rfl, rfl, rfl⟩

theorem addMany_ids_cons (H : Hooks) (k : Nat) (tl : List Nat) (w : World) :
    assignedIds (addMany H (k :: tl) w).2
      = (H.spawnHook k w).count :: assignedIds (addMany H tl (addEntity H k w).1).2 := by
  show assignedIds ((addEntity H k w).2 ++ (addMany H tl (addEntity H k w).1).2) = _
  rfl

theorem addMany_ids_ge (H : Hooks)
    (hmono : ∀ (k : Nat) (w' : World), w'.count ≤ (H.spawnHook k w').count) :
    ∀ (ks : List Nat) (w : World) (i : Nat),
      i ∈ assignedIds (addMany H ks w).2 → w.count ≤ i := by
  intro ks
  induction ks with
  | nil =>
    intro w i hi
    simp [addMany, assignedIds] at hi
  | cons k tl ih =>
    intro w i hi
    rw [addMany_ids_cons] at hi
    rcases List.mem_cons.mp hi with rfl | hi'
    · exact hmono k w
    · have h1 := ih (addEntity H k w).1 i hi'
      have h2 : (addEntity H k w).1.count = (H.spawnHook k w).count + 1 := rfl
      have h3 := hmono k w
      omega

/-- Claim C8: whenever the `spawn` hooks never shrink the id counter, the
identifiers a sequence of `addEntity` calls assigns are strictly increasing
(hence never repeated); and when the hooks leave the counter alone and the
world is fresh (counter 1), the assigned ids are exactly 1, 2, …, n. -/
theorem C8_ids (H : Hooks) (ks : List Nat) (w : World)
    (hmono : ∀ (k : Nat) (w' : World), w'.count ≤ (H.spawnHook k w').count) :
    List.Pairwise (· < ·) (assignedIds (addMany H ks w).2) ∧
    ((∀ (k : Nat) (w' : World), (H.spawnHook k w').count = w'.count) →
      w.count = 1 → assignedIds (addMany H ks w).2 = idsFrom 1 ks.length) := by
  constructor
  · induction ks generalizing w with
    | nil =>
      show List.Pairwise (· < ·) []
      exact List.Pairwise.nil
    | cons k tl ih =>
      rw [addMany_ids_cons]
      refine List.Pairwise.cons ?_ (ih (addEntity H k w).1)
      intro i hi
      have h1 := addMany_ids_ge H hmono tl (addEntity H k w).1 i hi
      have h2 : (addEntity H k w).1.count = (H.spawnHook k w).count + 1 := rfl
      omega
  · intro hpres h1
    have general : ∀ (ks' : List Nat) (w' : World),
        assignedIds (addMany H ks' w').2 = idsFrom w'.count ks'.length := by
      intro ks'
      induction ks' with
      | nil =>
        intro w'
        rfl
      | cons k' tl' ih =>
        intro w'
        rw [addMany_ids_cons, hpres, ih]
        have hc : (addEntity H k' w').1.count = w'.count + 1 := by
          show (H.spawnHook k' w').count + 1 = w'.count + 1
          rw [hpres]
        rw [hc]
        rfl
    rw [general ks w, h1]

/-- Claim C8 witness: three adds on the fresh world assign ids 1, 2, 3. -/
theorem C8_witness :
    List.Pairwise (· < ·) (assignedIds (addMany Hid [4, 5, 6] freshW).2) ∧
    assignedIds (addMany Hid [4, 5, 6] freshW).2 = idsFrom 1 3 := by
  have h := C8_ids Hid [4, 5, 6] freshW (fun k w' => le_refl _)
  exact ⟨h.1, h.2 (fun k w' => rfl) rfl⟩

/-- Claim C2: the game-over branch registers a new `keyup` listener (with
its own fresh `breakCircuit` flag) on every `update()` call, so after two
game-over frames a single Space keyup runs the destroy/rebuild reset twice
— not at most once per terminal-state entry as intended. -/
theorem C2_reset_runs_twice :
    (spaceKeyup Hid (gameUpdateN Hid 0 2 gameOverW).1).2 = 2 ∧
    ¬ ((spaceKeyup Hid (gameUpdateN Hid 0 2 gameOverW).1).2 ≤ 1) := by
  decide

/-- Claim C7: while lives ≤ 0, any number of `update()` calls log no
entity update, destruction, collision or late-update event and change
nothing but the list of registered listeners; lives stay ≤ 0 throughout,
so this persists until a reset fires. -/
theorem C7_game_over_gating (H : Hooks) (d : Int) :
    ∀ (n : Nat) (g : World), g.state._lives ≤ 0 →
      gameUpdateN H d n g
        = ({ g with listeners := g.listeners ++ List.replicate n false }, []) := by
  intro n
  induction n with
  | zero =>
    intro g h
    simp [gameUpdateN]
  | succ n ih =>
    intro g h
    have hg : isGameOver g = true := by
      simp only [isGameOver, GameState.lives, decide_eq_true_eq]
      exact h
    have ih' := ih { g with listeners := g.listeners ++ [false] } h
    simp only [gameUpdateN, gameUpdate, hg, if_true]
    rw [ih']
    simp [List.replicate_succ, List.append_assoc]

/-- Claim C7 witness: two game-over frames on a concrete world. -/
theorem C7_witness :
    gameUpdateN Hid 0 2 gameOverW
      = ({ gameOverW with listeners := [false, false] }, []) := by
  have h := C7_game_over_gating Hid 0 2 gameOverW (by decide)
  simpa using h

theorem collPairs_append (l1 l2 : List Ev) :
    collPairs (l1 ++ l2) = collPairs l1 ++ collPairs l2 :=
  List.filterMap_append _ _ _

theorem collPairs_pairEval (a b : Nat) (da db : Bool) (l : List Ev) :
    collPairs (Ev.pairEval a b da db :: l) = collPairs l :=
  rfl

theorem collPairs_collided (a b : Nat) (l : List Ev) :
    collPairs (Ev.collided a b :: l) = (a, b) :: collPairs l :=
  rfl

/-- Claim C1, counterexample: entity 1 deletes itself through a collision
callback; when `update()` returns, entity 1 is still in the live collection
with its deleted flag set, because compaction ran before the collision
pass. -/
theorem C1_counterexample :
    1 ∈ (gameUpdate Hdel 0 wC1).1.arr ∧
    isDeleted (gameUpdate Hdel 0 wC1).1 1 = true := by
  decide

/-- Claim C1, amended: the live collection is re-filtered only at the
compaction step, which runs before the collision pass: an entity is in the
post-compaction collection (the collision pass's snapshot) exactly when it
was in the collection after the destruction pass and its deleted flag was
then unset — so no entity deleted during the update pass reaches the
collision pass, while flags set later in the frame persist in the returned
collection. -/
theorem C1_amended (H : Hooks) (d : Int) (w : World) (k : Nat) :
    k ∈ (compactStage (destroyStage H (updateStage H d w).1).1).arr ↔
      k ∈ (destroyStage H (updateStage H d w).1).1.arr ∧
        isDeleted (destroyStage H (updateStage H d w).1).1 k = false := by
  simp [compactStage, List.mem_filter]

theorem innerLoop_pairEval_fresh (H : Hooks) (e1k : Nat) :
    ∀ (rest : List Nat) (w : World) (a b : Nat) (da db : Bool),
      Ev.pairEval a b da db ∈ (innerLoop H e1k rest w).2 → db = false := by
  intro rest
  induction rest with
  | nil =>
    intro w a b da db hm
    simp [innerLoop] at hm
  | cons e2k tl ih =>
    intro w a b da db hm
    cases hdel : isDeleted w e2k with
    | true =>
      simp only [innerLoop, hdel, if_true] at hm
      exact ih w a b da db hm
    | false =>
      cases hi : (getHb w e1k).intersects (getHb w e2k) with
      | true =>
        simp only [innerLoop, hdel, hi, Bool.false_eq_true, if_false, if_true] at hm
        rcases List.mem_cons.mp hm with he | hm'
        · cases he
          rfl
        · rcases List.mem_cons.mp hm' with he | hm''
          · cases he
          · rcases List.mem_cons.mp hm'' with he | hm'''
            · cases he
            · exact ih _ a b da db hm'''
      | false =>
        simp only [innerLoop, hdel, hi, Bool.false_eq_true, if_false] at hm
        rcases List.mem_cons.mp hm with he | hm'
        · cases he
          rfl
        · exact ih w a b da db hm'

theorem outerLoop_pairEval_fresh (H : Hooks) :
    ∀ (snap : List Nat) (w : World) (a b : Nat) (da db : Bool),
      Ev.pairEval a b da db ∈ (outerLoop H snap w).2 → db = false := by
  intro snap
  induction snap with
  | nil =>
    intro w a b da db hm
    simp [outerLoop] at hm
  | cons e1k tl ih =>
    intro w a b da db hm
    cases hdel : isDeleted w e1k with
    | true =>
      simp only [outerLoop, hdel, if_true] at hm
      exact ih w a b da db hm
    | false =>
      simp only [outerLoop, hdel, Bool.false_eq_true, if_false] at hm
      rcases List.mem_append.mp hm with h1 | h2
      · exact innerLoop_pairEval_fresh H e1k tl w a b da db h1
      · exact ih _ a b da db h2

/-- Claim C3, counterexample: three mutually overlapping entities; the
callback of pair (1,2) deletes entity 1, yet the pass still evaluates the
later pair (1,3) — `pairEval 1 3 true false` records that entity 1 was
already deleted there — because the outer member's deleted flag is checked
once per outer iteration, not at every inner iteration. -/
theorem C3_counterexample :
    (detectCollisions Hdel wC3).2
        = [Ev.pairEval 1 2 false false, Ev.collided 1 2, Ev.collided 2 1,
           Ev.pairEval 1 3 true false, Ev.collided 1 3, Ev.collided 3 1,
           Ev.pairEval 2 3 false false, Ev.collided 2 3, Ev.collided 3 2] ∧
      isDeleted (detectCollisions Hdel wC3).1 1 = true := by
  constructor <;> decide

/-- Claim C3, amended: the deleted status of the inner (second) member of
each pair is checked freshly at every inner-loop iteration — every
evaluated pair has a live inner member at evaluation time — while the outer
member's status is checked only once per outer iteration. -/
theorem C3_amended (H : Hooks) (w : World) (a b : Nat) (da db : Bool)
    (hm : Ev.pairEval a b da db ∈ (detectCollisions H w).2) :
    db = false :=
  outerLoop_pairEval_fresh H w.arr w a b da db hm

/-- Claim C3 witness: a concrete evaluated pair, with a live inner member. -/
theorem C3_amended_witness :
    Ev.pairEval 1 2 false false ∈ (detectCollisions Hid wAB).2 ∧ false = false :=
  ⟨by decide, C3_amended Hid wAB 1 2 false false (by decide)⟩

theorem heapEq_isDeleted {w1 w2 : World} (h : w1.heap = w2.heap) (k : Nat) :
    isDeleted w1 k = isDeleted w2 k := by
  unfold isDeleted
  rw [h]

theorem heapEq_getHb {w1 w2 : World} (h : w1.heap = w2.heap) (k : Nat) :
    getHb w1 k = getHb w2 k := by
  unfold getHb
  rw [h]

theorem innerLoop_hits (H : Hooks)
    (hheap : ∀ (a b : Nat) (w' : World), (H.hit a b w').heap = w'.heap)
    (e1k : Nat) :
    ∀ (rest : List Nat) (w : World),
      (∀ k, k ∈ rest → isDeleted w k = false) →
      (innerLoop H e1k rest w).1.heap = w.heap ∧
      collPairs (innerLoop H e1k rest w).2
        = rest.flatMap (fun b =>
            if (getHb w e1k).intersects (getHb w b) then
              [(e1k, b), (b, e1k)]
            else []) := by
  intro rest
  induction rest with
  | nil =>
    intro w _
    exact ⟨rfl, rfl⟩
  | cons e2k tl ih =>
    intro w hlive
    have hdel : isDeleted w e2k = false := hlive e2k (List.mem_cons_self _ _)
    cases hi : (getHb w e1k).intersects (getHb w e2k) with
    | false =>
      have ihw := ih w (fun k hk => hlive k (List.mem_cons_of_mem _ hk))
      constructor
      · simp only [innerLoop, hdel, hi, Bool.false_eq_true, if_false]
        exact ihw.1
      · simp only [innerLoop, hdel, hi, Bool.false_eq_true, if_false]
        rw [collPairs_pairEval, ihw.2, List.flatMap_cons]
        simp [hi]
    | true =>
      have hw2 : (H.hit e2k e1k (H.hit e1k e2k w)).heap = w.heap := by
        rw [hheap, hheap]
      have hlive2 : ∀ k, k ∈ tl → isDeleted (H.hit e2k e1k (H.hit e1k e2k w)) k = false := by
        intro k hk
        rw [heapEq_isDeleted hw2 k]
        exact hlive k (List.mem_cons_of_mem _ hk)
      have ihw := ih (H.hit e2k e1k (H.hit e1k e2k w)) hlive2
      constructor
      · simp only [innerLoop, hdel, hi, Bool.false_eq_true, if_false, if_true]
        rw [ihw.1, hw2]
      · simp only [innerLoop, hdel, hi, Bool.false_eq_true, if_false, if_true]
        rw [collPairs_pairEval, collPairs_collided, collPairs_collided, ihw.2]
        simp only [heapEq_getHb hw2]
        rw [List.flatMap_cons]
        simp [hi]

theorem outerLoop_hits (H : Hooks)
    (hheap : ∀ (a b : Nat) (w' : World), (H.hit a b w').heap = w'.heap) :
    ∀ (snap : List Nat) (w : World),
      (∀ k, k ∈ snap → isDeleted w k = false) →
      (outerLoop H snap w).1.heap = w.heap ∧
      collPairs (outerLoop H snap w).2 = expectedPairs w.heap snap := by
  intro snap
  induction snap with
  | nil =>
    intro w _
    exact ⟨rfl, rfl⟩
  | cons e1k tl ih =>
    intro w hlive
    have hdel : isDeleted w e1k = false := hlive e1k (List.mem_cons_self _ _)
    have hin := innerLoop_hits H hheap e1k tl w
      (fun k hk => hlive k (List.mem_cons_of_mem _ hk))
    have hlive2 : ∀ k, k ∈ tl → isDeleted (innerLoop H e1k tl w).1 k = false := by
      intro k hk
      rw [heapEq_isDeleted hin.1 k]
      exact hlive k (List.mem_cons_of_mem _ hk)
    have iht := ih (innerLoop H e1k tl w).1 hlive2
    constructor
    · simp only [outerLoop, hdel, Bool.false_eq_true, if_false]
      rw [iht.1, hin.1]
    · simp only [outerLoop, hdel, Bool.false_eq_true, if_false]
      rw [collPairs_append, hin.2, iht.2, hin.1]
      unfold expectedPairs
      rw [show pairsOf (e1k :: tl) = tl.map (fun y => (e1k, y)) ++ pairsOf tl from rfl]
      rw [List.flatMap_append, List.flatMap_map]
      rfl

theorem pairsOf_ne :
    ∀ (l : List Nat), l.Nodup → ∀ p ∈ pairsOf l, p.1 ≠ p.2 := by
  intro l
  induction l with
  | nil =>
    intro _ p hp
    simp [pairsOf] at hp
  | cons x xs ih =>
    intro hnd p hp
    rw [show pairsOf (x :: xs) = xs.map (fun y => (x, y)) ++ pairsOf xs from rfl] at hp
    rcases List.mem_append.mp hp with h1 | h2
    · rcases List.mem_map.mp h1 with ⟨y, hy, he⟩
      cases he
      intro hxy
      have hxy' : x = y := hxy
      exact (List.nodup_cons.mp hnd).1 (hxy' ▸ hy)
    · exact ih (List.nodup_cons.mp hnd).2 p h2

/-- Claim C6: when the collision callbacks leave the entity heap alone and
the snapshot holds only live entities (as it does right after compaction),
the pass's `collidedWith` invocations are exactly, in order: for each index
pair i < j of the snapshot whose hitboxes intersect, first snapshot[i]'s
hitbox notified with snapshot[j]'s, then the reverse — so exactly once in
each direction per intersecting pair, nothing for non-intersecting pairs,
no pair twice; and on a duplicate-free snapshot no entity is paired with
itself. -/
theorem C6_collision_pairs (H : Hooks) (w : World)
    (hheap : ∀ (a b : Nat) (w' : World), (H.hit a b w').heap = w'.heap)
    (hlive : ∀ k, k ∈ w.arr → isDeleted w k = false) :
    collPairs (detectCollisions H w).2 = expectedPairs w.heap w.arr ∧
    (w.arr.Nodup → ∀ a : Nat, (a, a) ∉ collPairs (detectCollisions H w).2) := by
  have h := outerLoop_hits H hheap w.arr w hlive
  refine ⟨h.2, ?_⟩
  intro hnd a hmem
  unfold detectCollisions at hmem
  rw [h.2] at hmem
  unfold expectedPairs at hmem
  rcases List.mem_flatMap.mp hmem with ⟨p, hp, hmem2⟩
  have hne := pairsOf_ne w.arr hnd p hp
  by_cases hi : (getHbH w.heap p.1).intersects (getHbH w.heap p.2) = true
  · rw [if_pos hi] at hmem2
    rcases List.mem_cons.mp hmem2 with he | hmem3
    · have h1 : a = p.1 := congrArg Prod.fst he
      have h2 : a = p.2 := congrArg Prod.snd he
      exact hne (h1 ▸ h2)
    · rcases List.mem_cons.mp hmem3 with he | hmem4
      · have h1 : a = p.2 := congrArg Prod.fst he
        have h2 : a = p.1 := congrArg Prod.snd he
        exact hne (h2.symm.trans h1)
      · simp at hmem4
  · rw [if_neg hi] at hmem2
    simp at hmem2

/-- Claim C6 witness: the spec's scenario — player box (0,0,32,32) vs cat
box (20,0,32,32) — produces exactly the two notifications, player-side
first, and no self-pair. -/
theorem C6_witness :
    collPairs (detectCollisions Hid wAB).2 = [(1, 2), (2, 1)] ∧
    (1, 1) ∉ collPairs (detectCollisions Hid wAB).2 := by
  have h := C6_collision_pairs Hid wAB (fun a b w' => rfl) (by decide)
  exact ⟨h.1.trans (by decide), h.2 (by decide) 1⟩

theorem runUpdates_log (H : Hooks) (d : Int) :
    ∀ (snap : List Nat) (w : World),
      (runUpdates H d snap w).2 = snap.map Ev.update := by
  intro snap
  induction snap with
  | nil =>
    intro w
    rfl
  | cons k tl ih =>
    intro w
    show Ev.update k :: (runUpdates H d tl (H.upd k d w)).2
      = Ev.update k :: tl.map Ev.update
    rw [ih]

theorem runLates_log (H : Hooks) (d : Int) :
    ∀ (snap : List Nat) (w : World),
      (runLates H d snap w).2 = snap.map Ev.lateUpdate := by
  intro snap
  induction snap with
  | nil =>
    intro w
    rfl
  | cons k tl ih =>
    intro w
    show Ev.lateUpdate k :: (runLates H d tl (H.late k d w)).2
      = Ev.lateUpdate k :: tl.map Ev.lateUpdate
    rw [ih]

theorem runDestroys_log (H : Hooks) :
    ∀ (dels : List Nat) (w : World),
      (runDestroys H dels w).2 = dels.map Ev.destroyed := by
  intro dels
  induction dels with
  | nil =>
    intro w
    rfl
  | cons k tl ih =>
    intro w
    show Ev.destroyed k :: (runDestroys H tl (H.onDestroy k w)).2
      = Ev.destroyed k :: tl.map Ev.destroyed
    rw [ih]

theorem updateStage_log (H : Hooks) (d : Int) (w : World) :
    (updateStage H d w).2 = w.arr.map Ev.update :=
  runUpdates_log H d w.arr w

theorem lateStage_log (H : Hooks) (d : Int) (w : World) :
    (lateStage H d w).2 = w.arr.map Ev.lateUpdate :=
  runLates_log H d w.arr w

theorem destroyStage_log (H : Hooks) (w : World) :
    (destroyStage H w).2
      = (w.arr.filter (fun k => isDeleted w k)).map Ev.destroyed :=
  runDestroys_log H _ w

theorem innerLoop_no_upd (H : Hooks) (e1k : Nat) :
    ∀ (rest : List Nat) (w : World) (k : Nat),
      Ev.update k ∉ (innerLoop H e1k rest w).2 := by
  intro rest
  induction rest with
  | nil =>
    intro w k hm
    simp [innerLoop] at hm
  | cons e2k tl ih =>
    intro w k hm
    cases hdel : isDeleted w e2k with
    | true =>
      simp only [innerLoop, hdel, if_true] at hm
      exact ih w k hm
    | false =>
      cases hi : (getHb w e1k).intersects (getHb w e2k) with
      | true =>
        simp only [innerLoop, hdel, hi, Bool.false_eq_true, if_false, if_true] at hm
        rcases List.mem_cons.mp hm with he | hm'
        · cases he
        · rcases List.mem_cons.mp hm' with he | hm''
          · cases he
          · rcases List.mem_cons.mp hm'' with he | hm'''
            · cases he
            · exact ih _ k hm'''
      | false =>
        simp only [innerLoop, hdel, hi, Bool.false_eq_true, if_false] at hm
        rcases List.mem_cons.mp hm with he | hm'
        · cases he
        · exact ih w k hm'

theorem outerLoop_no_upd (H : Hooks) :
    ∀ (snap : List Nat) (w : World) (k : Nat),
      Ev.update k ∉ (outerLoop H snap w).2 := by
  intro snap
  induction snap with
  | nil =>
    intro w k hm
    simp [outerLoop] at hm
  | cons e1k tl ih =>
    intro w k hm
    cases hdel : isDeleted w e1k with
    | true =>
      simp only [outerLoop, hdel, if_true] at hm
      exact ih w k hm
    | false =>
      simp only [outerLoop, hdel, Bool.false_eq_true, if_false] at hm
      rcases List.mem_append.mp hm with h1 | h2
      · exact innerLoop_no_upd H e1k tl w k h1
      · exact ih _ k h2

theorem updateFrame_log (H : Hooks) (d : Int) (w : World) :
    (updateFrame H d w).2
      = (updateStage H d w).2
        ++ (destroyStage H (updateStage H d w).1).2
        ++ (detectCollisions H
              (compactStage (destroyStage H (updateStage H d w).1).1)).2
        ++ (lateStage H d
              (detectCollisions H
                (compactStage (destroyStage H (updateStage H d w).1).1)).1).2 :=
  rfl

/-- Claim C10: an entity not in the collection at frame start that is in
the collection once the update and destruction passes are done (it was
added via `addEntity` from inside a component hook during the update pass),
is still undeleted at compaction, and is not removed during the collision
pass, receives no `update(delta)` that frame (the update pass iterates the
pass-start snapshot), but is in the collision pass's post-compaction
snapshot and receives `lateUpdate(delta)` that same frame. -/
theorem C10_mid_frame_add (H : Hooks) (d : Int) (w : World) (k : Nat)
    (h0 : k ∉ w.arr)
    (h2 : k ∈ (destroyStage H (updateStage H d w).1).1.arr)
    (h3 : isDeleted (destroyStage H (updateStage H d w).1).1 k = false)
    (h4 : k ∈ (detectCollisions H
            (compactStage (destroyStage H (updateStage H d w).1).1)).1.arr) :
    Ev.update k ∉ (updateFrame H d w).2 ∧
    k ∈ (compactStage (destroyStage H (updateStage H d w).1).1).arr ∧
    Ev.lateUpdate k ∈ (updateFrame H d w).2 := by
  refine ⟨?_, ?_, ?_⟩
  · rw [updateFrame_log]
    intro hm
    rcases List.mem_append.mp hm with hm' | hlate
    · rcases List.mem_append.mp hm' with hm'' | hcoll
      · rcases List.mem_append.mp hm'' with hup | hdest
        · rw [updateStage_log] at hup
          rcases List.mem_map.mp hup with ⟨x, hx, he⟩
          cases he
          exact h0 hx
        · rw [destroyStage_log] at hdest
          rcases List.mem_map.mp hdest with ⟨x, _, he⟩
          cases he
      · exact outerLoop_no_upd H _ _ k hcoll
    · rw [lateStage_log] at hlate
      rcases List.mem_map.mp hlate with ⟨x, _, he⟩
      cases he
  · unfold compactStage
    refine List.mem_filter.mpr ⟨h2, ?_⟩
    rw [h3]
    rfl
  · rw [updateFrame_log]
    refine List.mem_append.mpr (Or.inr ?_)
    rw [lateStage_log]
    exact List.mem_map.mpr ⟨k, h4, rfl⟩

/-- Claim C10 witness: entity 1's component adds entity 9 during the update
pass; entity 9 is not updated that frame but reaches the collision snapshot
and is late-updated. -/
theorem C10_witness :
    Ev.update 9 ∉ (updateFrame Hadd 0 wC10).2 ∧
    9 ∈ (compactStage (destroyStage Hadd (updateStage Hadd 0 wC10).1).1).arr ∧
    Ev.lateUpdate 9 ∈ (updateFrame Hadd 0 wC10).2 :=
  C10_mid_frame_add Hadd 0 wC10 9 (by decide) (by decide) (by decide) (by decide)
